import Mathlib

/-!
Shallow embedding of `src/master.py` (bandi scraper dashboard pipeline).

Modelling conventions:
* `datetime` values are modelled as `Int` (an abstract totally ordered time axis);
  `datetime.max` is modelled as the top element `none` of `Option Int` in sort keys.
* `dateutil.parser.parse` is not reimplemented: the fuzzy (`dayfirst=True, fuzzy=True`)
  and strict (`dayfirst=True`) parsers are parameters `pf ps : String → Option Int`
  (`none` = the parser raises).
* network fetches are parameters of type `Except`: `.error` means the underlying
  `requests` call (or JSON shape access) raised, `.ok` carries the decoded payload.
* `uuid.uuid4()` is modelled by a parameter `fresh : Nat → String` supplying the token
  used for the record at a given position.
* Python `str.lower` is modelled on its ASCII fragment (all taxonomy keywords and
  sentinels in the source are ASCII).
-/

namespace Bandi

/-- ASCII model of Python `str.lower` on a single character. -/
def lowerChar (c : Char) : Char :=
  if 65 ≤ c.toNat ∧ c.toNat ≤ 90 then Char.ofNat (c.toNat + 32) else c

/-- Lowercased character list of a string (Python `text.lower()`). -/
def lowerStr (s : String) : List Char := s.data.map lowerChar

/-- `leadsChars n h` holds when `n` is an initial segment of `h`. -/
def leadsChars : List Char → List Char → Bool
  | [], _ => true
  | _ :: _, [] => false
  | a :: as, b :: bs => a == b && leadsChars as bs

/-- Substring containment on character lists (Python `needle in haystack`). -/
def hasChars (needle : List Char) : List Char → Bool
  | [] => needle.isEmpty
  | b :: bs => leadsChars needle (b :: bs) || hasChars needle bs

/-- Index of the first `'>'` in the list, if any. -/
def gtIdx : List Char → Option Nat
  | [] => none
  | c :: cs => if c = '>' then some 0 else (gtIdx cs).map (· + 1)

/-- One fuel-indexed pass of `re.sub(r"<[^>]+>", " ", txt)`: each leftmost match
`<[^>]+>` (a `'<'`, one or more non-`'>'` characters, then `'>'`) is replaced by a
single space; positions without a match are copied. The fuel argument only bounds
the recursion and is never exhausted when it starts at the list length. -/
def stripTagsFuel : Nat → List Char → List Char
  | 0, l => l
  | _, [] => []
  | fuel + 1, c :: cs =>
    if c = '<' then
      match gtIdx cs with
      | some (k + 1) => ' ' :: stripTagsFuel fuel (cs.drop (k + 2))
      | _ => c :: stripTagsFuel fuel cs
    else c :: stripTagsFuel fuel cs

/-- `re.sub(r"<[^>]+>", " ", txt)` on character lists. -/
def stripTags (l : List Char) : List Char := stripTagsFuel l.length l

/-- The whitespace characters recognised by Python `str.strip()` (ASCII fragment). -/
def isSpacePy (c : Char) : Bool :=
  c == ' ' || c == '\t' || c == '\n' || c == '\r' || c == '\x0b' || c == '\x0c'

/-- Python `str.strip()`. -/
def pyStrip (l : List Char) : List Char :=
  ((l.dropWhile isSpacePy).reverse.dropWhile isSpacePy).reverse

/-- `_clean_html` from `src/master.py`: `None`/empty → `""`, otherwise strip markup
tags (each replaced by one space) and trim surrounding whitespace. -/
def clean_html : Option String → String
  | none => ""
  | some s => if s = "" then "" else String.mk (pyStrip (stripTags s.data))

/-- `ST_TAGS` from `src/master.py`, in dict insertion order. -/
def ST_TAGS : List (String × List String) :=
  [("eventi", ["evento", "manifestazione", "festival", "fiera"]),
   ("turismo", ["turismo", "turistica"]),
   ("tech", ["tech", "digital", "ict", "hackathon"]),
   ("marketing", ["marketing", "promozione", "comunicazione"]),
   ("cultura", ["cultur", "museo", "spettacolo"])]

/-- The taxonomy categories whose keyword list has a member occurring
(case-insensitively) in `text`, in `ST_TAGS` order. -/
def matchedTags (text : String) : List String :=
  (ST_TAGS.filter fun p => p.2.any fun k => hasChars k.data (lowerStr text)).map Prod.fst

/-- `_guess_tags` from `src/master.py`: the matching categories, or `["varie"]`
when none match (`tags or ["varie"]`). -/
def guess_tags (text : String) : List String :=
  if (matchedTags text).isEmpty then ["varie"] else matchedTags text

/-- `SCADENZA_GIORNI` from `src/master.py`. -/
def SCADENZA_GIORNI : Int := 30

/-- `_within_next_days` from `src/master.py`. `pf` models
`dtparser.parse (dayfirst=True, fuzzy=True)` (`none` = parse raised), `today`
models `datetime.today()`. A falsy (`None` or empty) candidate is accepted, a
parse failure is accepted, a parsed date is accepted iff it is at most
`today + days`. -/
def within_next_days (pf : String → Option Int) (today : Int)
    (date_str : Option String) (days : Int) : Bool :=
  match date_str with
  | none => true
  | some s =>
    if s = "" then true
    else
      match pf s with
      | some dt => decide (dt ≤ today + days)
      | none => true

/-- The canonical record built by every adapter (the dict appended to `items`). -/
structure Notice where
  id : String
  title : String
  entity : String
  deadline : String
  amount : String
  tags : List String
  link : String
  deriving DecidableEq, Repr

/-- One element of the `items` array decoded by `fetch_trento`: the fields of
`itm` (`uid`, `title`, `url`, `id`) and of `itm["properties"]`
(`dataScadenza`, `importoBase`) that the adapter reads; `none` = key absent. -/
structure TrentoItem where
  uid : Option String
  title : Option String
  dataScadenza : Option String
  url : Option String
  jid : Option String
  importoBase : Option String
  deriving DecidableEq, Repr

/-- The record-building loop of `fetch_trento` over the decoded `items` array. -/
def trentoNotices (pf : String → Option Int) (today : Int) (fresh : Nat → String)
    (data : List TrentoItem) : List Notice :=
  data.enum.filterMap fun pr =>
    let itm := pr.2
    let title := clean_html itm.title
    let deadline := itm.dataScadenza.getD ""
    let link := itm.url.getD (itm.jid.getD "")
    let amount := if itm.importoBase.getD "" = "" then "-" else itm.importoBase.getD ""
    if within_next_days pf today (some deadline) SCADENZA_GIORNI then
      some { id := itm.uid.getD (fresh pr.1), title := title,
             entity := "Comune di Trento",
             deadline := if deadline = "" then "Aperto" else deadline,
             amount := amount, tags := guess_tags title, link := link }
    else none

/-- `fetch_trento` from `src/master.py`. The `src` argument is the outcome of
`requests.get` / `raise_for_status` / `.json().get("items", [])`; the source has
no `try` around these, so a raised error propagates (`.error`). -/
def fetch_trento (pf : String → Option Int) (today : Int) (fresh : Nat → String)
    (src : Except String (List TrentoItem)) : Except String (List Notice) :=
  match src with
  | .error e => .error e
  | .ok data => .ok (trentoNotices pf today fresh data)

/-- One record of `resp.json()["result"]["records"]` in `fetch_ckan`;
`none` = key absent. -/
structure CkanRec where
  oggetto : Option String
  scadenza : Option String
  idGara : Option String
  stazioneAppaltante : Option String
  importoBaseAsta : Option String
  urlBando : Option String
  urlGara : Option String
  deriving DecidableEq, Repr

/-- The record-building loop of `fetch_ckan` over the decoded records. -/
def ckanNotices (pf : String → Option Int) (today : Int) (fresh : Nat → String)
    (records : List CkanRec) : List Notice :=
  records.enum.filterMap fun pr =>
    let r := pr.2
    let title := r.oggetto.getD ""
    let deadline := r.scadenza.getD ""
    if within_next_days pf today (some deadline) SCADENZA_GIORNI then
      some { id := r.idGara.getD (fresh pr.1), title := title,
             entity := r.stazioneAppaltante.getD "PAT",
             deadline := if deadline = "" then "Aperto" else deadline,
             amount := r.importoBaseAsta.getD "-",
             tags := guess_tags title,
             link := r.urlBando.getD (r.urlGara.getD "") }
    else none

/-- `fetch_ckan` from `src/master.py`. As in the source, a failure of the GET /
status check / JSON shape access propagates (`.error`). -/
def fetch_ckan (pf : String → Option Int) (today : Int) (fresh : Nat → String)
    (src : Except String (List CkanRec)) : Except String (List Notice) :=
  match src with
  | .error e => .error e
  | .ok records => .ok (ckanNotices pf today fresh records)

/-- The `h2` element of an Alto Adige card: its stripped text and, when the
heading contains an `<a>`, that anchor's `href` attribute. -/
structure H2Tag where
  txt : String
  href : Option String
  deriving DecidableEq, Repr

/-- One `div.bando-card` of an Alto Adige listing page: the optional heading
and the optional text of `span[data-field='scadenza']`. -/
structure Card where
  h2 : Option H2Tag
  scad : Option String
  deriving DecidableEq, Repr

/-- The fixed base URL of the Alto Adige portal. -/
def ALTO_BASE : String := "https://www.bandi-altoadige.it/"

/-- The listing URL requested for page `p`. -/
def pageUrl (p : Nat) : String := ALTO_BASE ++ "?page=" ++ toString p ++ "&search=eventi"

/-- The cards seen by the `for p in range(1, pages + 1)` loop of
`fetch_altoadige` starting at page number `p`, each paired with its page
number: a page whose fetch raised (`.error`, caught by the per-page
`try`/`continue`) contributes no cards. -/
def cardsFrom (p : Nat) : List (Except Unit (List Card)) → List (Nat × Card)
  | [] => []
  | .error _ :: rest => cardsFrom (p + 1) rest
  | .ok cs :: rest => (cs.map fun c => (p, c)) ++ cardsFrom (p + 1) rest

/-- All cards seen by `fetch_altoadige`, pages numbered from 1. -/
def cardsOfPages (pgs : List (Except Unit (List Card))) : List (Nat × Card) :=
  cardsFrom 1 pgs

/-- `fetch_altoadige` from `src/master.py`. `pgs` lists the per-page fetch
outcomes for pages `1..pages`; `fresh` supplies the `uuid.uuid4()` token for the
card at a given position. -/
def fetch_altoadige (pf : String → Option Int) (today : Int) (fresh : Nat → String)
    (pgs : List (Except Unit (List Card))) : List Notice :=
  (cardsOfPages pgs).enum.filterMap fun pr =>
    let p := pr.2.1
    let c := pr.2.2
    let url := pageUrl p
    let title := match c.h2 with | some h => h.txt | none => "(senza titolo)"
    let link := match c.h2 with
      | some h => match h.href with | some a => ALTO_BASE ++ a | none => url
      | none => url
    let deadline := c.scad.getD "Aperto"
    if within_next_days pf today (some deadline) SCADENZA_GIORNI then
      some { id := fresh pr.1, title := title,
             entity := "Provincia Autonoma di Bolzano / Altri",
             deadline := deadline, amount := "-", tags := guess_tags title,
             link := link }
    else none

/-- One `<item>` of the PAT RSS feed: its title text and link text. -/
structure FeedItem where
  title : String
  link : String
  deriving DecidableEq, Repr

/-- Match `(\d{2}/\d{2}/\d{4})` at the head of the list, returning the ten
matched characters. -/
def takeDate (cs : List Char) : Option (List Char) :=
  match cs with
  | d1 :: d2 :: '/' :: m1 :: m2 :: '/' :: y1 :: y2 :: y3 :: y4 :: _ =>
    if (d1.isDigit && d2.isDigit && m1.isDigit && m2.isDigit &&
        y1.isDigit && y2.isDigit && y3.isDigit && y4.isDigit) then
      some [d1, d2, '/', m1, m2, '/', y1, y2, y3, y4]
    else none
  | _ => none

/-- Consume `needle` (a lowercase pattern literal) case-insensitively at the
head of the input, returning the rest. -/
def labelMatch : List Char → List Char → Option (List Char)
  | [], rest => some rest
  | _ :: _, [] => none
  | n :: ns, c :: cs => if lowerChar c = n then labelMatch ns cs else none

/-- Attempt `scadenza:?\s*(\d{2}/\d{2}/\d{4})` (with `re.I`) at the head of the
list, returning the captured date. The pattern is deterministic: `:?` and
`\s*` are greedy and no backtracking can succeed where the greedy path fails. -/
def scadAt (cs : List Char) : Option (List Char) :=
  match labelMatch "scadenza".data cs with
  | none => none
  | some r =>
    let r2 := match r with
      | ':' :: t => t
      | t => t
    takeDate (r2.dropWhile isSpacePy)

/-- `re.search` of the deadline pattern: the leftmost position where the whole
pattern matches, returning the captured group. -/
def findScad : List Char → Option (List Char)
  | [] => none
  | c :: cs =>
    match scadAt (c :: cs) with
    | some d => some d
    | none => findScad cs

/-- The deadline string `fetch_pat` derives from a (cleaned) title: the regex
capture when the search succeeds, the sentinel `"Aperto"` otherwise. -/
def patDeadline (title : String) : String :=
  match findScad title.data with
  | some ds => String.mk ds
  | none => "Aperto"

/-- `fetch_pat` from `src/master.py`. `src` is the outcome of the feed GET
(the only statement inside the `try`: on error the adapter returns an empty
frame); `.ok` carries the parsed `<item>` elements, of which only the first
`limit` are scanned. -/
def fetch_pat (pf : String → Option Int) (today : Int) (limit : Nat)
    (src : Except Unit (List FeedItem)) : List Notice :=
  match src with
  | .error _ => []
  | .ok its => (its.take limit).filterMap fun it =>
      let title := clean_html (some it.title)
      let deadline_str := patDeadline title
      if within_next_days pf today (some deadline_str) SCADENZA_GIORNI then
        some { id := it.link, title := title,
               entity := "Provincia Autonoma di Trento (PAT)",
               deadline := deadline_str, amount := "-",
               tags := guess_tags title, link := it.link }
      else none

/-- `row["deadline"].lower().startswith("aperto")`. -/
def startsAperto (s : String) : Bool := leadsChars "aperto".data (lowerStr s)

/-- The `_key` row function inside `load_bandi`: `datetime.max` (modelled as
`none`) for deadlines starting with "aperto" (case-insensitively) and for
deadlines the strict day-first parser `ps` fails on; otherwise the parsed
date. Note the parse here is `dtparser.parse(_, dayfirst=True)` without
`fuzzy=True`, unlike `_within_next_days`. -/
def sortKey (ps : String → Option Int) (deadline : String) : Option Int :=
  if startsAperto deadline then none
  else
    match ps deadline with
    | some t => some t
    | none => none

/-- The order `datetime` comparison induces on sort keys, with `none`
(= `datetime.max`) as the top element. -/
def keyLe : Option Int → Option Int → Bool
  | _, none => true
  | none, some _ => false
  | some a, some b => decide (a ≤ b)

/-- Propositional form of `keyLe`. -/
def keyLE (a b : Option Int) : Prop := keyLe a b = true

instance : DecidableRel keyLE := fun a b =>
  inferInstanceAs (Decidable (keyLe a b = true))

/-- Executable check that adjacent keys are in `keyLe` order. -/
def sortedKeys : List (Option Int) → Bool
  | [] => true
  | [_] => true
  | a :: b :: t => keyLe a b && sortedKeys (b :: t)

/-- `df.drop_duplicates(subset=["id"])` with the default `keep="first"`,
generalised over the set of already-seen ids. -/
def dedupByIdAux : List String → List Notice → List Notice
  | _, [] => []
  | seen, n :: ns =>
    if n.id ∈ seen then dedupByIdAux seen ns
    else n :: dedupByIdAux (n.id :: seen) ns

/-- `df.drop_duplicates(subset=["id"])`: keep the first row for each id, in
row order. -/
def dedupById (l : List Notice) : List Notice := dedupByIdAux [] l

/-- The list `dfs` built by `load_bandi`: the result of each adapter call in
the fixed order Trento, CKAN, Alto Adige, PAT, where a call that raised is
caught (`except Exception`) and contributes no frame. `load_bandi` calls each
adapter with its default arguments, so the PAT feed limit is 50. -/
def adapterFrames (pf : String → Option Int) (today : Int)
    (fT fC fA : Nat → String)
    (rT : Except String (List TrentoItem)) (rC : Except String (List CkanRec))
    (pgs : List (Except Unit (List Card))) (rP : Except Unit (List FeedItem)) :
    List (List Notice) :=
  [(match fetch_trento pf today fT rT with | .ok l => some l | .error _ => none),
   (match fetch_ckan pf today fC rC with | .ok l => some l | .error _ => none),
   some (fetch_altoadige pf today fA pgs),
   some (fetch_pat pf today 50 rP)].filterMap id

/-- `pd.concat(dfs, ignore_index=True)`: the merged rows in adapter order. -/
def mergedAll (pf : String → Option Int) (today : Int)
    (fT fC fA : Nat → String)
    (rT : Except String (List TrentoItem)) (rC : Except String (List CkanRec))
    (pgs : List (Except Unit (List Card))) (rP : Except Unit (List FeedItem)) :
    List Notice :=
  (adapterFrames pf today fT fC fA rT rC pgs rP).flatten

/-- `df.sort_values("_sort")` followed by `df.drop(columns="_sort")`: attach
the `_key` sort key to each row, reorder the rows by the index permutation the
sorting algorithm returns for the key column, and drop the key again.
`sortAlg` models the `numpy` argsort that pandas runs on the key column (the
default `kind="quicksort"`), so it sees only the keys. -/
def applySort (sortAlg : List (Option Int) → List Nat)
    (ps : String → Option Int) (dd : List Notice) : List Notice :=
  let keyed := dd.map fun n => (n, sortKey ps n.deadline)
  ((sortAlg (keyed.map Prod.snd)).filterMap fun i => keyed[i]?).map Prod.fst

/-- The contract pandas guarantees for the argsort of the key column with the
default `kind="quicksort"`: the returned indices are a permutation of all row
positions and read the keys in non-decreasing order. Stability is **not**
part of this contract. -/
def SortSpec (ks : List (Option Int)) (idx : List Nat) : Prop :=
  List.Perm idx (List.range ks.length) ∧
  sortedKeys (idx.filterMap fun i => ks[i]?) = true

instance (ks : List (Option Int)) (idx : List Nat) : Decidable (SortSpec ks idx) :=
  inferInstanceAs (Decidable (List.Perm idx (List.range ks.length) ∧
    sortedKeys (idx.filterMap fun i => ks[i]?) = true))

/-- `load_bandi` from `src/master.py`. Each adapter call is wrapped in
`try`/`except` (a raising adapter only produces a warning); with no surviving
frame the function returns an empty frame; otherwise the frames are
concatenated, deduplicated by id, and sorted by the `_key` column. When every
surviving frame is empty the concatenated frame has no columns (a
`pd.DataFrame([])` is column-less), so `drop_duplicates(subset=["id"])`
raises `KeyError` — modelled by the `.error` branch. -/
def load_bandi (pf ps : String → Option Int) (today : Int)
    (fT fC fA : Nat → String)
    (rT : Except String (List TrentoItem)) (rC : Except String (List CkanRec))
    (pgs : List (Except Unit (List Card))) (rP : Except Unit (List FeedItem))
    (sortAlg : List (Option Int) → List Nat) : Except String (List Notice) :=
  let dfs := adapterFrames pf today fT fC fA rT rC pgs rP
  if dfs.isEmpty then .ok []
  else
    let merged := dfs.flatten
    if merged.isEmpty then .error "KeyError: id"
    else .ok (applySort sortAlg ps (dedupById merged))

/-- Rename the id of a record, leaving every other field unchanged. -/
def reId (φ : String → String) (n : Notice) : Notice := { n with id := φ n.id }

/-- A parser that always raises (used to instantiate theorems concretely). -/
def pfNone : String → Option Int := fun _ => none

/-- A degenerate uuid supply (used to instantiate theorems concretely). -/
def freshBlank : Nat → String := fun _ => ""

/-- The identity argsort (used to instantiate theorems concretely). -/
def idAlg : List (Option Int) → List Nat := fun ks => List.range ks.length

/-- The reversing argsort (used to instantiate theorems concretely). -/
def revAlg : List (Option Int) → List Nat := fun ks => (List.range ks.length).reverse

/-- A parser succeeding on exactly one string (used to instantiate theorems
concretely). -/
def pfOnly (s0 : String) (v : Int) : String → Option Int :=
  fun s => if s = s0 then some v else none

/-- Replace a failed page fetch by a successful fetch of a page with no cards. -/
def errToEmpty : Except Unit (List Card) → Except Unit (List Card)
  | .error _ => .ok []
  | .ok cs => .ok cs

/-- The `_sort` column: the sort key of each row of `dd`. -/
def noticeKeys (ps : String → Option Int) (dd : List Notice) : List (Option Int) :=
  dd.map fun n => sortKey ps n.deadline

/-- A demo feed snapshot with two open notices (used to instantiate theorems
concretely). -/
def demoFeed : List FeedItem := [⟨"a", "l1"⟩, ⟨"b", "l2"⟩]

/-- The notice `fetch_pat` builds from the first `demoFeed` item. -/
def demoNoticeA : Notice :=
  ⟨"l1", "a", "Provincia Autonoma di Trento (PAT)", "Aperto", "-", ["varie"], "l1"⟩

/-- The notice `fetch_pat` builds from the second `demoFeed` item. -/
def demoNoticeB : Notice :=
  ⟨"l2", "b", "Provincia Autonoma di Trento (PAT)", "Aperto", "-", ["varie"], "l2"⟩

/-- Swap the two demo uuid tokens (an injective renaming of generated ids,
used to instantiate theorems concretely). -/
def swapU : String → String :=
  fun s => if s = "u1" then "u2" else if s = "u2" then "u1" else s

instance {ε α : Type} [DecidableEq ε] [DecidableEq α] : DecidableEq (Except ε α) :=
  fun a b =>
  match a, b with
  | .error e1, .error e2 =>
    if h : e1 = e2 then isTrue (by rw [h])
    else isFalse (by intro hh; injection hh; exact h (by assumption))
  | .error _, .ok _ => isFalse (fun h => Except.noConfusion h)
  | .ok _, .error _ => isFalse (fun h => Except.noConfusion h)
  | .ok v1, .ok v2 =>
    if h : v1 = v2 then isTrue (by rw [h])
    else isFalse (by intro hh; injection hh; exact h (by assumption))

/-! ### General lemmas -/

theorem filterMap_getElem_take {α : Type} (l : List α) (n : Nat) :
    (List.range n).filterMap (fun i => l[i]?) = l.take n := by
  induction n with
  | zero => simp
  | succ n ih =>
    rw [List.range_succ, List.filterMap_append, ih, List.take_succ]
    cases h : l[n]? <;> simp [List.filterMap, h]

theorem filterMap_getElem_range {α : Type} (l : List α) :
    (List.range l.length).filterMap (fun i => l[i]?) = l := by
  rw [filterMap_getElem_take, List.take_length]

theorem mem_of_getElem?_eq {α : Type} {l : List α} {i : Nat} {a : α}
    (h : l[i]? = some a) : a ∈ l := by
  rcases List.getElem?_eq_some.mp h with ⟨hlt, he⟩
  exact he ▸ List.getElem_mem _

theorem keyLE_trans {a b c : Option Int} (h1 : keyLE a b) (h2 : keyLE b c) :
    keyLE a c := by
  cases a <;> cases b <;> cases c <;>
    simp [keyLE, keyLe] at h1 h2 ⊢ <;> omega

instance : IsTrans (Option Int) keyLE := ⟨fun _ _ _ => keyLE_trans⟩

theorem sortedKeys_iff_chain (l : List (Option Int)) :
    sortedKeys l = true ↔ List.Chain' keyLE l := by
  induction l with
  | nil => simp [sortedKeys]
  | cons a t ih =>
    cases t with
    | nil => simp [sortedKeys]
    | cons b t2 =>
      rw [sortedKeys, Bool.and_eq_true, ih, List.chain'_cons]
      exact and_congr_left fun _ => Iff.rfl

theorem sortedKeys_pairwise {l : List (Option Int)} (h : sortedKeys l = true) :
    List.Pairwise keyLE l :=
  (List.chain'_iff_pairwise).mp ((sortedKeys_iff_chain l).mp h)

/-! ### Deduplication lemmas -/

theorem dedupByIdAux_mem {seen : List String} {l : List Notice} {n : Notice}
    (h : n ∈ dedupByIdAux seen l) : n ∈ l ∧ n.id ∉ seen := by
  induction l generalizing seen with
  | nil => simp [dedupByIdAux] at h
  | cons m t ih =>
    rw [dedupByIdAux] at h
    by_cases hm : m.id ∈ seen
    · rw [if_pos hm] at h
      have := ih h
      exact ⟨List.mem_cons_of_mem _ this.1, this.2⟩
    · rw [if_neg hm] at h
      rcases List.mem_cons.mp h with rfl | h2
      · exact ⟨List.mem_cons_self _ _, hm⟩
      · have := ih h2
        refine ⟨List.mem_cons_of_mem _ this.1, fun hs => this.2 ?_⟩
        exact List.mem_cons_of_mem _ hs

theorem dedupByIdAux_ids_nodup (seen : List String) (l : List Notice) :
    ((dedupByIdAux seen l).map Notice.id).Nodup := by
  induction l generalizing seen with
  | nil => simp [dedupByIdAux]
  | cons m t ih =>
    rw [dedupByIdAux]
    by_cases hm : m.id ∈ seen
    · rw [if_pos hm]; exact ih seen
    · rw [if_neg hm]
      rw [List.map_cons, List.nodup_cons]
      refine ⟨fun hmem => ?_, ih (m.id :: seen)⟩
      rcases List.mem_map.mp hmem with ⟨k, hk, hkid⟩
      exact (dedupByIdAux_mem hk).2 (hkid ▸ List.mem_cons_self _ _)

theorem dedupByIdAux_find {seen : List String} {l : List Notice} {n : Notice}
    (h : n ∈ dedupByIdAux seen l) :
    l.find? (fun m => m.id == n.id) = some n := by
  induction l generalizing seen with
  | nil => simp [dedupByIdAux] at h
  | cons m t ih =>
    have hn : n.id ∉ seen := (dedupByIdAux_mem h).2
    rw [dedupByIdAux] at h
    by_cases hm : m.id ∈ seen
    · rw [if_pos hm] at h
      have hne : (m.id == n.id) = false := by
        simp only [beq_eq_false_iff_ne]
        intro he
        exact hn (he ▸ hm)
      rw [List.find?_cons_of_neg _ (by simp [hne])]
      exact ih h
    · rw [if_neg hm] at h
      rcases List.mem_cons.mp h with rfl | h2
      · exact List.find?_cons_of_pos _ (by simp)
      · have hn2 : n.id ∉ m.id :: seen := (dedupByIdAux_mem h2).2
        have hne : m.id ≠ n.id := fun he => hn2 (he ▸ List.mem_cons_self _ _)
        rw [List.find?_cons_of_neg _ (by simp [hne])]
        exact ih h2

theorem dedupByIdAux_cover {seen : List String} {l : List Notice} {m : Notice}
    (hm : m ∈ l) (hs : m.id ∉ seen) :
    ∃ n ∈ dedupByIdAux seen l, n.id = m.id := by
  induction l generalizing seen with
  | nil => simp at hm
  | cons a t ih =>
    rw [dedupByIdAux]
    by_cases ha : a.id ∈ seen
    · rw [if_pos ha]
      rcases List.mem_cons.mp hm with rfl | h2
      · exact absurd ha hs
      · exact ih h2 hs
    · rw [if_neg ha]
      rcases List.mem_cons.mp hm with he | h2
      · exact ⟨a, List.mem_cons_self _ _, by rw [he]⟩
      · by_cases hid : m.id = a.id
        · exact ⟨a, List.mem_cons_self _ _, hid.symm⟩
        · have : m.id ∉ a.id :: seen := by
            intro hx
            rcases List.mem_cons.mp hx with hx | hx
            · exact hid hx
            · exact hs hx
          rcases ih h2 this with ⟨n, hn1, hn2⟩
          exact ⟨n, List.mem_cons_of_mem _ hn1, hn2⟩

/-! ### Sorting-stage lemmas -/

theorem keyed_snd (ps : String → Option Int) (dd : List Notice) :
    (dd.map fun n => (n, sortKey ps n.deadline)).map Prod.snd = noticeKeys ps dd := by
  simp [noticeKeys, List.map_map]

theorem applySort_perm (sortAlg : List (Option Int) → List Nat)
    (ps : String → Option Int) (dd : List Notice)
    (h : SortSpec (noticeKeys ps dd) (sortAlg (noticeKeys ps dd))) :
    List.Perm (applySort sortAlg ps dd) dd := by
  unfold applySort
  dsimp only
  rw [keyed_snd]
  have hlen : (noticeKeys ps dd).length = (dd.map fun n => (n, sortKey ps n.deadline)).length := by
    simp [noticeKeys]
  have hp := List.Perm.filterMap
    (fun i => (dd.map fun n => (n, sortKey ps n.deadline))[i]?) h.1
  rw [hlen, filterMap_getElem_range] at hp
  have := hp.map Prod.fst
  simpa [List.map_map, Function.comp_def] using this

theorem applySort_sorted (sortAlg : List (Option Int) → List Nat)
    (ps : String → Option Int) (dd : List Notice)
    (h : SortSpec (noticeKeys ps dd) (sortAlg (noticeKeys ps dd))) :
    sortedKeys ((applySort sortAlg ps dd).map fun n => sortKey ps n.deadline) = true := by
  unfold applySort
  dsimp only
  rw [keyed_snd]
  have h1 : (((sortAlg (noticeKeys ps dd)).filterMap
      (fun i => (dd.map fun n => (n, sortKey ps n.deadline))[i]?)).map
        ((fun n => sortKey ps n.deadline) ∘ Prod.fst))
      = ((sortAlg (noticeKeys ps dd)).filterMap
      (fun i => (dd.map fun n => (n, sortKey ps n.deadline))[i]?)).map Prod.snd := by
    apply List.map_congr_left
    intro p hp
    rcases List.mem_filterMap.mp hp with ⟨i, _, hi⟩
    have hpm : p ∈ dd.map fun n => (n, sortKey ps n.deadline) :=
      mem_of_getElem?_eq hi
    rcases List.mem_map.mp hpm with ⟨n, _, rfl⟩
    rfl
  have h2 : (((sortAlg (noticeKeys ps dd)).filterMap
      (fun i => (dd.map fun n => (n, sortKey ps n.deadline))[i]?)).map Prod.snd)
      = (sortAlg (noticeKeys ps dd)).filterMap fun i => (noticeKeys ps dd)[i]? := by
    rw [List.map_filterMap]
    refine List.filterMap_congr fun i _ => ?_
    rw [← List.getElem?_map, keyed_snd]
  rw [List.map_map, h1, h2]
  exact h.2

/-- Shape of `guess_tags` as a plain conditional on `matchedTags`. -/
theorem guess_tags_eq_ite (text : String) :
    guess_tags text = if matchedTags text = [] then ["varie"] else matchedTags text := by
  unfold guess_tags
  by_cases h : matchedTags text = [] <;> simp [h]

/-! ### Claim theorems -/

/-- Claim C1: `_within_next_days`, given a candidate deadline string and a window
of `days` days, returns True when the candidate is absent or empty; when the
candidate is non-empty and day-first fuzzy parsing succeeds it returns True iff
the parsed date is at most `today + days` (no lower bound, so already-past
deadlines are included); and when parsing fails it returns True. -/
theorem claim_C1_within_next_days (pf : String → Option Int) (today days : Int) :
    within_next_days pf today none days = true ∧
    within_next_days pf today (some "") days = true ∧
    (∀ s, s ≠ "" → pf s = none → within_next_days pf today (some s) days = true) ∧
    (∀ s dt, s ≠ "" → pf s = some dt →
      (within_next_days pf today (some s) days = true ↔ dt ≤ today + days)) := by
  refine ⟨rfl, by simp [within_next_days], ?_, ?_⟩
  · intro s hs hp
    simp [within_next_days, hs, hp]
  · intro s dt hs hp
    simp [within_next_days, hs, hp]

/-- Witness for C1: an absent, an empty, an unparsable and a parsable deadline,
the last one 10 days out with a 30-day window starting at day 0. -/
theorem claim_C1_witness :
    within_next_days (pfOnly "10/11/2025" 10) 0 none 30 = true ∧
    within_next_days (pfOnly "10/11/2025" 10) 0 (some "") 30 = true ∧
    within_next_days (pfOnly "10/11/2025" 10) 0 (some "boh") 30 = true ∧
    (within_next_days (pfOnly "10/11/2025" 10) 0 (some "10/11/2025") 30 = true ↔
      (10 : Int) ≤ 0 + 30) :=
  ⟨(claim_C1_within_next_days (pfOnly "10/11/2025" 10) 0 30).1,
   (claim_C1_within_next_days (pfOnly "10/11/2025" 10) 0 30).2.1,
   (claim_C1_within_next_days (pfOnly "10/11/2025" 10) 0 30).2.2.1 "boh"
     (by decide) (by decide),
   (claim_C1_within_next_days (pfOnly "10/11/2025" 10) 0 30).2.2.2 "10/11/2025" 10
     (by decide) (by decide)⟩

/-- Claim C4: `_guess_tags` returns exactly the categories of `ST_TAGS`, in
table order, whose keyword list contains a case-insensitive substring of the
title; with no match it returns the single fallback category, so the result is
never empty; a title matching no keyword yields only `"varie"`, and a title
containing `"hackathon"` yields tags containing `"tech"`. -/
theorem claim_C4_guess_tags (text : String) :
    guess_tags text ≠ [] ∧
    (matchedTags text = [] → guess_tags text = ["varie"]) ∧
    (matchedTags text ≠ [] → guess_tags text = matchedTags text) ∧
    List.Sublist (matchedTags text) (ST_TAGS.map Prod.fst) ∧
    (∀ t, t ∈ matchedTags text ↔
      ∃ kws, (t, kws) ∈ ST_TAGS ∧ ∃ k ∈ kws, hasChars k.data (lowerStr text) = true) ∧
    (hasChars "hackathon".data (lowerStr text) = true → "tech" ∈ guess_tags text) := by
  have hmem_iff : ∀ t, t ∈ matchedTags text ↔
      ∃ kws, (t, kws) ∈ ST_TAGS ∧ ∃ k ∈ kws, hasChars k.data (lowerStr text) = true := by
    intro t
    unfold matchedTags
    constructor
    · intro ht
      rcases List.mem_map.mp ht with ⟨p, hp, rfl⟩
      rcases List.mem_filter.mp hp with ⟨hmemb, hfil⟩
      rcases List.any_eq_true.mp hfil with ⟨k, hk, hks⟩
      exact ⟨p.2, by simpa using hmemb, k, hk, hks⟩
    · rintro ⟨kws, hmemb, k, hk, hks⟩
      exact List.mem_map.mpr ⟨(t, kws),
        List.mem_filter.mpr ⟨hmemb, List.any_eq_true.mpr ⟨k, hk, hks⟩⟩, rfl⟩
  refine ⟨?_, ?_, ?_, ?_, hmem_iff, ?_⟩
  · rw [guess_tags_eq_ite]
    split
    · simp
    · next h => exact h
  · intro h
    rw [guess_tags_eq_ite, if_pos h]
  · intro h
    rw [guess_tags_eq_ite, if_neg h]
  · exact List.Sublist.map Prod.fst (List.filter_sublist ST_TAGS)
  · intro hh
    have htech : "tech" ∈ matchedTags text := by
      refine (hmem_iff "tech").mpr
        ⟨["tech", "digital", "ict", "hackathon"], ?_, "hackathon", ?_, hh⟩
      · simp [ST_TAGS]
      · simp
    have hne : matchedTags text ≠ [] := List.ne_nil_of_mem htech
    rw [guess_tags_eq_ite, if_neg hne]
    exact htech

/-- Witness for C4: a hackathon title is tagged `"tech"`, a title matching no
keyword is tagged exactly `["varie"]`, and tags are never empty. -/
theorem claim_C4_witness :
    "tech" ∈ guess_tags "Hackathon Digitale 2025" ∧
    guess_tags "Bando generico" = ["varie"] ∧
    guess_tags "Bando Turismo" ≠ [] :=
  ⟨(claim_C4_guess_tags "Hackathon Digitale 2025").2.2.2.2.2 (by decide),
   (claim_C4_guess_tags "Bando generico").2.1 (by decide),
   (claim_C4_guess_tags "Bando Turismo").1⟩

/-- Claim C10: the aggregator's `_key` maps a record to the `datetime.max`
sentinel (`none`) iff the lowercased deadline starts with `"aperto"` or strict
(non-fuzzy) day-first parsing fails; because `_within_next_days` uses fuzzy
parsing while `_key` does not, a deadline that only the fuzzy parser accepts
passes the filter yet gets the sentinel key, sorting with the "open" records. -/
theorem claim_C10_sortKey (ps pf : String → Option Int) (today days : Int) (d : String) :
    (sortKey ps d = none ↔ startsAperto d = true ∨ ps d = none) ∧
    (∀ t, startsAperto d = false → d ≠ "" → pf d = some t → ps d = none →
      t ≤ today + days →
      within_next_days pf today (some d) days = true ∧ sortKey ps d = none) := by
  constructor
  · unfold sortKey
    by_cases h : startsAperto d
    · simp [h]
    · simp only [h, Bool.false_eq_true, if_false, false_or]
      cases hp : ps d <;> simp [hp]
  · intro t h1 h2 h3 h4 h5
    constructor
    · simp [within_next_days, h2, h3, h5]
    · unfold sortKey
      simp [h1, h4]

/-- Witness for C10: `"entro il 05/06/2025"` with a fuzzy parser that accepts
it (day 10) and a strict parser that raises: the filter admits the record while
its sort key is the maximum sentinel. -/
theorem claim_C10_witness :
    within_next_days (pfOnly "entro il 05/06/2025" 10) 0
      (some "entro il 05/06/2025") 30 = true ∧
    sortKey pfNone "entro il 05/06/2025" = none :=
  (claim_C10_sortKey pfNone (pfOnly "entro il 05/06/2025" 10) 0 30
    "entro il 05/06/2025").2 10 (by decide) (by decide) (by decide) (by decide)
    (by decide)

/-- A failed page fetch contributes exactly the cards of an empty page. -/
theorem cardsFrom_errToEmpty (pgs : List (Except Unit (List Card))) (p : Nat) :
    cardsFrom p (pgs.map errToEmpty) = cardsFrom p pgs := by
  induction pgs generalizing p with
  | nil => rfl
  | cons pg rest ih =>
    cases pg with
    | error e => simp [errToEmpty, cardsFrom, ih]
    | ok cs => simp [errToEmpty, cardsFrom, ih]

/-- When every page fetch fails, the loop sees no cards at all. -/
theorem cardsFrom_all_error {pgs : List (Except Unit (List Card))}
    (h : ∀ pg ∈ pgs, pg = Except.error ()) (p : Nat) :
    cardsFrom p pgs = [] := by
  induction pgs generalizing p with
  | nil => rfl
  | cons pg rest ih =>
    have hpg := h pg (List.mem_cons_self _ _)
    subst hpg
    exact ih (fun x hx => h x (List.mem_cons_of_mem _ hx)) (p + 1)

/-- Claim C5 counterexample: with the network fetch raising, the API (Trento)
and CKAN adapters propagate the error to their caller instead of returning an
empty result — the source wraps neither `requests.get` nor the response
decoding of these two adapters in `try`. -/
theorem claim_C5_counterexample :
    fetch_trento pfNone 0 freshBlank (Except.error "boom") = Except.error "boom" ∧
    fetch_ckan pfNone 0 freshBlank (Except.error "boom") = Except.error "boom" ∧
    (Except.error "boom" : Except String (List Notice)) ≠ Except.ok [] :=
  ⟨rfl, rfl, by simp⟩

/-- Claim C5 amended: only the HTML-listing and feed adapters recover from
fetch failures at their own boundary (returning empty results); the API and
CKAN adapters propagate any fetch failure to the caller, where `load_bandi`
catches it. -/
theorem claim_C5_adapter_errors (pf : String → Option Int) (today : Int)
    (fresh : Nat → String) (limit : Nat) :
    (∀ e, fetch_trento pf today fresh (Except.error e) = Except.error e) ∧
    (∀ e, fetch_ckan pf today fresh (Except.error e) = Except.error e) ∧
    fetch_pat pf today limit (Except.error ()) = [] ∧
    (∀ pgs, (∀ pg ∈ pgs, pg = Except.error ()) →
      fetch_altoadige pf today fresh pgs = []) := by
  refine ⟨fun e => rfl, fun e => rfl, rfl, ?_⟩
  intro pgs hall
  unfold fetch_altoadige cardsOfPages
  rw [cardsFrom_all_error hall]
  rfl

/-- Witness for the amended C5: concrete failing fetches for the two adapters
that do recover locally. -/
theorem claim_C5_witness :
    fetch_pat pfNone 0 50 (Except.error ()) = [] ∧
    fetch_altoadige pfNone 0 freshBlank [Except.error ()] = [] :=
  ⟨(claim_C5_adapter_errors pfNone 0 freshBlank 50).2.2.1,
   (claim_C5_adapter_errors pfNone 0 freshBlank 50).2.2.2 [Except.error ()]
     (fun pg hpg => List.mem_singleton.mp hpg)⟩

/-- Claim C8: the feed adapter recovers the deadline by the case-insensitive
regular-expression search `scadenza:?\s*(\d{2}/\d{2}/\d{4})` inside the item's
(cleaned) title, uses the matched date string when found and `"Aperto"`
otherwise, and scans only the first `limit` feed items. -/
theorem claim_C8_fetch_pat (pf : String → Option Int) (today : Int) (limit : Nat)
    (its : List FeedItem) :
    fetch_pat pf today limit (Except.ok its)
      = fetch_pat pf today limit (Except.ok (its.take limit)) ∧
    (∀ n ∈ fetch_pat pf today limit (Except.ok its), ∃ it ∈ its.take limit,
      n.title = clean_html (some it.title) ∧
      n.deadline = patDeadline (clean_html (some it.title)) ∧
      n.link = it.link) ∧
    patDeadline "Bando X Scadenza: 01/02/2026 prova" = "01/02/2026" ∧
    patDeadline "Bando senza data" = "Aperto" := by
  refine ⟨?_, ?_, by decide, by decide⟩
  · simp [fetch_pat, List.take_take]
  · intro n hn
    unfold fetch_pat at hn
    rcases List.mem_filterMap.mp hn with ⟨it, hit, hsome⟩
    dsimp only at hsome
    have hn2 : n = { id := it.link, title := clean_html (some it.title),
                     entity := "Provincia Autonoma di Trento (PAT)",
                     deadline := patDeadline (clean_html (some it.title)),
                     amount := "-",
                     tags := guess_tags (clean_html (some it.title)),
                     link := it.link } := by
      split at hsome
      · exact (Option.some.inj hsome).symm
      · exact absurd hsome (by simp)
    exact ⟨it, hit, by rw [hn2], by rw [hn2], by rw [hn2]⟩

/-- Witness for C8: a two-item feed scanned with `limit = 1`; the surviving
notice carries the regex-extracted deadline of the first item. -/
theorem claim_C8_witness :
    fetch_pat pfNone 0 1
        (Except.ok [(⟨"Bando A scadenza: 01/02/2026", "l1"⟩ : FeedItem), ⟨"B", "l2"⟩])
      = fetch_pat pfNone 0 1
        (Except.ok ([(⟨"Bando A scadenza: 01/02/2026", "l1"⟩ : FeedItem), ⟨"B", "l2"⟩].take 1)) ∧
    (∃ it ∈ [(⟨"Bando A scadenza: 01/02/2026", "l1"⟩ : FeedItem), ⟨"B", "l2"⟩].take 1,
      ({ id := "l1", title := "Bando A scadenza: 01/02/2026",
         entity := "Provincia Autonoma di Trento (PAT)", deadline := "01/02/2026",
         amount := "-", tags := ["varie"], link := "l1" } : Notice).title
          = clean_html (some it.title) ∧
      ({ id := "l1", title := "Bando A scadenza: 01/02/2026",
         entity := "Provincia Autonoma di Trento (PAT)", deadline := "01/02/2026",
         amount := "-", tags := ["varie"], link := "l1" } : Notice).deadline
          = patDeadline (clean_html (some it.title)) ∧
      ({ id := "l1", title := "Bando A scadenza: 01/02/2026",
         entity := "Provincia Autonoma di Trento (PAT)", deadline := "01/02/2026",
         amount := "-", tags := ["varie"], link := "l1" } : Notice).link = it.link) :=
  ⟨(claim_C8_fetch_pat pfNone 0 1
      [(⟨"Bando A scadenza: 01/02/2026", "l1"⟩ : FeedItem), ⟨"B", "l2"⟩]).1,
   (claim_C8_fetch_pat pfNone 0 1
      [(⟨"Bando A scadenza: 01/02/2026", "l1"⟩ : FeedItem), ⟨"B", "l2"⟩]).2.1
     _ (by decide)⟩

/-- Claim C9: in the HTML-listing adapter a fetch failure on any single page is
exactly "zero cards on that page" (iteration continues with the next page), a
failing page never fails the whole adapter, and the result is what the
successfully fetched pages contribute. -/
theorem claim_C9_fetch_altoadige (pf : String → Option Int) (today : Int)
    (fresh : Nat → String) (pgs : List (Except Unit (List Card))) :
    fetch_altoadige pf today fresh (pgs.map errToEmpty)
      = fetch_altoadige pf today fresh pgs ∧
    (∀ rest, fetch_altoadige pf today fresh (Except.error () :: rest)
      = fetch_altoadige pf today fresh (Except.ok [] :: rest)) ∧
    ((∀ pg ∈ pgs, pg = Except.error ()) → fetch_altoadige pf today fresh pgs = []) := by
  refine ⟨?_, ?_, ?_⟩
  · unfold fetch_altoadige cardsOfPages
    rw [cardsFrom_errToEmpty]
  · intro rest
    unfold fetch_altoadige cardsOfPages
    simp [cardsFrom]
  · intro hall
    unfold fetch_altoadige cardsOfPages
    rw [cardsFrom_all_error hall]
    rfl

/-- Witness for C9: page 1 failing while page 2 carries one card is the same as
page 1 being empty; two failing pages produce an empty (non-raising) result. -/
theorem claim_C9_witness :
    fetch_altoadige pfNone 0 freshBlank
        (Except.error () :: [Except.ok [(⟨some ⟨"Fiera", some "x"⟩, none⟩ : Card)]])
      = fetch_altoadige pfNone 0 freshBlank
        (Except.ok [] :: [Except.ok [(⟨some ⟨"Fiera", some "x"⟩, none⟩ : Card)]]) ∧
    fetch_altoadige pfNone 0 freshBlank [Except.error (), Except.error ()] = [] :=
  ⟨(claim_C9_fetch_altoadige pfNone 0 freshBlank []).2.1
      [Except.ok [(⟨some ⟨"Fiera", some "x"⟩, none⟩ : Card)]],
   (claim_C9_fetch_altoadige pfNone 0 freshBlank
      [Except.error (), Except.error ()]).2.2
     (fun pg hpg => by
        rcases List.mem_cons.mp hpg with h | h
        · exact h
        · exact List.mem_singleton.mp h)⟩

/-- When the merged frame is non-empty, `load_bandi` takes the dedup-and-sort
path and returns it. -/
theorem load_bandi_ok (pf ps : String → Option Int) (today : Int)
    (fT fC fA : Nat → String)
    (rT : Except String (List TrentoItem)) (rC : Except String (List CkanRec))
    (pgs : List (Except Unit (List Card))) (rP : Except Unit (List FeedItem))
    (sortAlg : List (Option Int) → List Nat)
    (hne : mergedAll pf today fT fC fA rT rC pgs rP ≠ []) :
    load_bandi pf ps today fT fC fA rT rC pgs rP sortAlg
      = Except.ok (applySort sortAlg ps
          (dedupById (mergedAll pf today fT fC fA rT rC pgs rP))) := by
  have h2 : (adapterFrames pf today fT fC fA rT rC pgs rP).flatten.isEmpty = false := by
    cases hdf : (adapterFrames pf today fT fC fA rT rC pgs rP).flatten.isEmpty
    · rfl
    · exact absurd (List.isEmpty_iff.mp hdf) hne
  have h1 : (adapterFrames pf today fT fC fA rT rC pgs rP).isEmpty = false := by
    cases hdf : (adapterFrames pf today fT fC fA rT rC pgs rP).isEmpty
    · rfl
    · refine absurd ?_ hne
      unfold mergedAll
      rw [List.isEmpty_iff.mp hdf]
      rfl
  unfold load_bandi
  dsimp only
  rw [h1, h2]
  rfl

/-- Claim C6 (the code contradicts it): with every source unreachable — the
Trento and CKAN GETs raise, every Alto Adige page fetch raises, the PAT feed
GET raises — the two surviving adapter frames are empty and column-less, so
`drop_duplicates(subset=["id"])` raises `KeyError` instead of returning an
empty collection. -/
theorem claim_C6_all_sources_down :
    load_bandi pfNone pfNone 0 freshBlank freshBlank freshBlank
      (Except.error "net") (Except.error "net") [Except.error ()] (Except.error ()) idAlg
      = Except.error "KeyError: id" := rfl

/-- Claim C2 amended: for every merged input, any final collection produced
through an index order satisfying the pandas argsort contract on the `_key`
column is non-decreasing by the sort key (open/unparsable sentinel keys last),
is a permutation of the deduplicated merge, and carries no sort-key column
(the key is recomputed from the rows here); stability for equal keys is not
guaranteed, since `sort_values` is called with the default non-stable
`kind="quicksort"`. -/
theorem claim_C2_sort (pf ps : String → Option Int) (today : Int)
    (fT fC fA : Nat → String)
    (rT : Except String (List TrentoItem)) (rC : Except String (List CkanRec))
    (pgs : List (Except Unit (List Card))) (rP : Except Unit (List FeedItem))
    (sortAlg : List (Option Int) → List Nat)
    (hne : mergedAll pf today fT fC fA rT rC pgs rP ≠ [])
    (hs : SortSpec
      (noticeKeys ps (dedupById (mergedAll pf today fT fC fA rT rC pgs rP)))
      (sortAlg (noticeKeys ps (dedupById (mergedAll pf today fT fC fA rT rC pgs rP))))) :
    ∃ out, load_bandi pf ps today fT fC fA rT rC pgs rP sortAlg = Except.ok out ∧
      sortedKeys (out.map fun n => sortKey ps n.deadline) = true ∧
      List.Pairwise keyLE (out.map fun n => sortKey ps n.deadline) ∧
      List.Perm out (dedupById (mergedAll pf today fT fC fA rT rC pgs rP)) ∧
      List.Pairwise
        (fun a b => sortKey ps a.deadline = none → sortKey ps b.deadline = none) out := by
  refine ⟨applySort sortAlg ps (dedupById (mergedAll pf today fT fC fA rT rC pgs rP)),
    load_bandi_ok pf ps today fT fC fA rT rC pgs rP sortAlg hne, ?_, ?_, ?_, ?_⟩
  · exact applySort_sorted _ _ _ hs
  · exact sortedKeys_pairwise (applySort_sorted _ _ _ hs)
  · exact applySort_perm _ _ _ hs
  · have hp := sortedKeys_pairwise (applySort_sorted _ _ _ hs)
    rw [List.pairwise_map] at hp
    refine hp.imp ?_
    intro a b hk hna
    rw [hna] at hk
    cases hkb : sortKey ps b.deadline
    · rfl
    · rw [hkb] at hk
      exact absurd hk (by simp [keyLE, keyLe])

/-- Claim C2 counterexample (to the stability clause): the reversing index
order satisfies the argsort contract on the all-sentinel key column of two
equal-key records, yet the final collection reverses their pre-sort relative
order. -/
theorem claim_C2_counterexample :
    SortSpec
      (noticeKeys pfNone (dedupById (mergedAll pfNone 0 freshBlank freshBlank freshBlank
        (Except.error "net") (Except.error "net") [Except.error ()] (Except.ok demoFeed))))
      (revAlg (noticeKeys pfNone (dedupById (mergedAll pfNone 0 freshBlank freshBlank freshBlank
        (Except.error "net") (Except.error "net") [Except.error ()] (Except.ok demoFeed))))) ∧
    mergedAll pfNone 0 freshBlank freshBlank freshBlank
      (Except.error "net") (Except.error "net") [Except.error ()] (Except.ok demoFeed)
      = [demoNoticeA, demoNoticeB] ∧
    sortKey pfNone demoNoticeA.deadline = sortKey pfNone demoNoticeB.deadline ∧
    load_bandi pfNone pfNone 0 freshBlank freshBlank freshBlank
      (Except.error "net") (Except.error "net") [Except.error ()] (Except.ok demoFeed) revAlg
      = Except.ok [demoNoticeB, demoNoticeA] :=
  ⟨by decide, by decide, by decide, by decide⟩

/-- Witness for the amended C2: one parseable and one open notice from the
feed, sorted with the identity index order, which satisfies the contract on
their keys. -/
theorem claim_C2_witness :
    ∃ out, load_bandi pfNone (pfOnly "05/06/2025" 5) 0 freshBlank freshBlank freshBlank
        (Except.error "net") (Except.error "net") [Except.error ()]
        (Except.ok [(⟨"x scadenza: 05/06/2025", "l1"⟩ : FeedItem), ⟨"y", "l2"⟩]) idAlg
        = Except.ok out ∧
      sortedKeys (out.map fun n => sortKey (pfOnly "05/06/2025" 5) n.deadline) = true ∧
      List.Pairwise keyLE (out.map fun n => sortKey (pfOnly "05/06/2025" 5) n.deadline) ∧
      List.Perm out (dedupById (mergedAll pfNone 0 freshBlank freshBlank freshBlank
        (Except.error "net") (Except.error "net") [Except.error ()]
        (Except.ok [(⟨"x scadenza: 05/06/2025", "l1"⟩ : FeedItem), ⟨"y", "l2"⟩]))) ∧
      List.Pairwise
        (fun a b => sortKey (pfOnly "05/06/2025" 5) a.deadline = none →
          sortKey (pfOnly "05/06/2025" 5) b.deadline = none) out :=
  claim_C2_sort pfNone (pfOnly "05/06/2025" 5) 0 freshBlank freshBlank freshBlank
    (Except.error "net") (Except.error "net") [Except.error ()]
    (Except.ok [(⟨"x scadenza: 05/06/2025", "l1"⟩ : FeedItem), ⟨"y", "l2"⟩]) idAlg
    (by decide) (by decide)

/-- Claim C3: `load_bandi` concatenates the four adapters' lists in the fixed
order Trento, CKAN, Alto Adige, PAT and deduplicates by id keeping the first
occurrence: in the final collection ids are unique, every surviving record is
the first record of the merge carrying its id (so the earlier adapter wins),
and every merged id is represented. -/
theorem claim_C3_dedup (pf ps : String → Option Int) (today : Int)
    (fT fC fA : Nat → String)
    (rT : Except String (List TrentoItem)) (rC : Except String (List CkanRec))
    (pgs : List (Except Unit (List Card))) (rP : Except Unit (List FeedItem))
    (sortAlg : List (Option Int) → List Nat)
    (hne : mergedAll pf today fT fC fA rT rC pgs rP ≠ [])
    (hs : SortSpec
      (noticeKeys ps (dedupById (mergedAll pf today fT fC fA rT rC pgs rP)))
      (sortAlg (noticeKeys ps (dedupById (mergedAll pf today fT fC fA rT rC pgs rP))))) :
    (∀ tl cl pl, mergedAll pf today fT fC fA (Except.ok tl) (Except.ok cl) pgs (Except.ok pl)
      = trentoNotices pf today fT tl ++ ckanNotices pf today fC cl
        ++ fetch_altoadige pf today fA pgs ++ fetch_pat pf today 50 (Except.ok pl)) ∧
    ∃ out, load_bandi pf ps today fT fC fA rT rC pgs rP sortAlg = Except.ok out ∧
      (out.map Notice.id).Nodup ∧
      (∀ n ∈ out, (mergedAll pf today fT fC fA rT rC pgs rP).find?
        (fun m => m.id == n.id) = some n) ∧
      (∀ m ∈ mergedAll pf today fT fC fA rT rC pgs rP, ∃ n ∈ out, n.id = m.id) := by
  constructor
  · intro tl cl pl
    simp [mergedAll, adapterFrames, fetch_trento, fetch_ckan]
  · have hperm := applySort_perm sortAlg ps
      (dedupById (mergedAll pf today fT fC fA rT rC pgs rP)) hs
    refine ⟨applySort sortAlg ps (dedupById (mergedAll pf today fT fC fA rT rC pgs rP)),
      load_bandi_ok pf ps today fT fC fA rT rC pgs rP sortAlg hne, ?_, ?_, ?_⟩
    · exact ((hperm.map Notice.id).symm).nodup
        (dedupByIdAux_ids_nodup [] (mergedAll pf today fT fC fA rT rC pgs rP))
    · intro n hn
      exact dedupByIdAux_find (hperm.mem_iff.mp hn)
    · intro m hm
      rcases @dedupByIdAux_cover [] _ _ hm (by simp) with ⟨n, hn1, hn2⟩
      exact ⟨n, hperm.mem_iff.mpr hn1, hn2⟩

/-- Witness for C3: a Trento item and a CKAN record share the id `"x"`; the
survivor in the final collection is the Trento one (earlier adapter order), and
its id is unique there. -/
theorem claim_C3_witness :
    (mergedAll pfNone 0 freshBlank freshBlank freshBlank
      (Except.ok [(⟨some "x", none, none, none, none, none⟩ : TrentoItem)])
      (Except.ok [(⟨none, none, some "x", none, none, none, none⟩ : CkanRec)])
      [Except.error ()] (Except.ok [])
      = trentoNotices pfNone 0 freshBlank [(⟨some "x", none, none, none, none, none⟩ : TrentoItem)]
        ++ ckanNotices pfNone 0 freshBlank [(⟨none, none, some "x", none, none, none, none⟩ : CkanRec)]
        ++ fetch_altoadige pfNone 0 freshBlank [Except.error ()]
        ++ fetch_pat pfNone 0 50 (Except.ok [])) ∧
    ∃ out, load_bandi pfNone pfNone 0 freshBlank freshBlank freshBlank
        (Except.ok [(⟨some "x", none, none, none, none, none⟩ : TrentoItem)])
        (Except.ok [(⟨none, none, some "x", none, none, none, none⟩ : CkanRec)])
        [Except.error ()] (Except.ok []) idAlg = Except.ok out ∧
      (out.map Notice.id).Nodup ∧
      (∀ n ∈ out, (mergedAll pfNone 0 freshBlank freshBlank freshBlank
        (Except.ok [(⟨some "x", none, none, none, none, none⟩ : TrentoItem)])
        (Except.ok [(⟨none, none, some "x", none, none, none, none⟩ : CkanRec)])
        [Except.error ()] (Except.ok [])).find? (fun m => m.id == n.id) = some n) ∧
      (∀ m ∈ mergedAll pfNone 0 freshBlank freshBlank freshBlank
        (Except.ok [(⟨some "x", none, none, none, none, none⟩ : TrentoItem)])
        (Except.ok [(⟨none, none, some "x", none, none, none, none⟩ : CkanRec)])
        [Except.error ()] (Except.ok []), ∃ n ∈ out, n.id = m.id) :=
  ⟨(claim_C3_dedup pfNone pfNone 0 freshBlank freshBlank freshBlank
      (Except.ok [(⟨some "x", none, none, none, none, none⟩ : TrentoItem)])
      (Except.ok [(⟨none, none, some "x", none, none, none, none⟩ : CkanRec)])
      [Except.error ()] (Except.ok []) idAlg (by decide) (by decide)).1
      [(⟨some "x", none, none, none, none, none⟩ : TrentoItem)]
      [(⟨none, none, some "x", none, none, none, none⟩ : CkanRec)] [],
   (claim_C3_dedup pfNone pfNone 0 freshBlank freshBlank freshBlank
      (Except.ok [(⟨some "x", none, none, none, none, none⟩ : TrentoItem)])
      (Except.ok [(⟨none, none, some "x", none, none, none, none⟩ : CkanRec)])
      [Except.error ()] (Except.ok []) idAlg (by decide) (by decide)).2⟩

/-! ### Renaming generated ids (for claim C7) -/

theorem isEmpty_map_eq {α β : Type} (f : α → β) (l : List α) :
    (l.map f).isEmpty = l.isEmpty := by
  cases l <;> rfl

theorem trentoNotices_reId (pf : String → Option Int) (today : Int) (f : Nat → String)
    (φ : String → String) (data : List TrentoItem)
    (hfix : ∀ itm ∈ data, ∀ u, itm.uid = some u → φ u = u) :
    trentoNotices pf today (fun i => φ (f i)) data
      = (trentoNotices pf today f data).map (reId φ) := by
  unfold trentoNotices
  rw [List.map_filterMap]
  refine List.filterMap_congr ?_
  intro pr hpr
  obtain ⟨i, itm⟩ := pr
  have hitm : itm ∈ data := by
    rcases List.mem_enum hpr with ⟨hlt, he⟩
    exact he ▸ List.getElem_mem _
  dsimp only
  have hid : itm.uid.getD (φ (f i)) = φ (itm.uid.getD (f i)) := by
    cases huid : itm.uid with
    | none => rfl
    | some u => simp [hfix itm hitm u huid]
  by_cases hc : within_next_days pf today (some (itm.dataScadenza.getD ""))
      SCADENZA_GIORNI = true
  · simp only [if_pos hc, Option.map_some']
    simp [reId, hid]
  · simp only [if_neg hc, Option.map_none']

theorem ckanNotices_reId (pf : String → Option Int) (today : Int) (f : Nat → String)
    (φ : String → String) (records : List CkanRec)
    (hfix : ∀ r ∈ records, ∀ u, r.idGara = some u → φ u = u) :
    ckanNotices pf today (fun i => φ (f i)) records
      = (ckanNotices pf today f records).map (reId φ) := by
  unfold ckanNotices
  rw [List.map_filterMap]
  refine List.filterMap_congr ?_
  intro pr hpr
  obtain ⟨i, r⟩ := pr
  have hr : r ∈ records := by
    rcases List.mem_enum hpr with ⟨hlt, he⟩
    exact he ▸ List.getElem_mem _
  dsimp only
  have hid : r.idGara.getD (φ (f i)) = φ (r.idGara.getD (f i)) := by
    cases huid : r.idGara with
    | none => rfl
    | some u => simp [hfix r hr u huid]
  by_cases hc : within_next_days pf today (some (r.scadenza.getD ""))
      SCADENZA_GIORNI = true
  · simp only [if_pos hc, Option.map_some']
    simp [reId, hid]
  · simp only [if_neg hc, Option.map_none']

theorem fetch_altoadige_reId (pf : String → Option Int) (today : Int)
    (f : Nat → String) (φ : String → String) (pgs : List (Except Unit (List Card))) :
    fetch_altoadige pf today (fun i => φ (f i)) pgs
      = (fetch_altoadige pf today f pgs).map (reId φ) := by
  unfold fetch_altoadige
  rw [List.map_filterMap]
  refine List.filterMap_congr ?_
  intro pr _
  dsimp only
  by_cases hc : within_next_days pf today
      (some (pr.2.2.scad.getD "Aperto")) SCADENZA_GIORNI = true
  · simp only [if_pos hc, Option.map_some']
    simp [reId]
  · simp only [if_neg hc, Option.map_none']

theorem fetch_pat_reId (pf : String → Option Int) (today : Int) (limit : Nat)
    (φ : String → String) (rP : Except Unit (List FeedItem))
    (hfix : ∀ pl, rP = Except.ok pl → ∀ it ∈ pl, φ it.link = it.link) :
    (fetch_pat pf today limit rP).map (reId φ) = fetch_pat pf today limit rP := by
  cases rP with
  | error e => rfl
  | ok its =>
    unfold fetch_pat
    rw [List.map_filterMap]
    refine List.filterMap_congr ?_
    intro it hit
    dsimp only
    have hl : φ it.link = it.link := hfix its rfl it (List.mem_of_mem_take hit)
    by_cases hc : within_next_days pf today
        (some (patDeadline (clean_html (some it.title)))) SCADENZA_GIORNI = true
    · simp only [if_pos hc, Option.map_some']
      simp [reId, hl]
    · simp only [if_neg hc, Option.map_none']

theorem frames_map (g : List Notice → List Notice) (o1 o2 : Option (List Notice))
    (a p p' : List Notice) (hp : p' = g p) :
    [o1.map g, o2.map g, some (g a), some p'].filterMap id
      = ([o1, o2, some a, some p].filterMap id).map g := by
  subst hp
  cases o1 <;> cases o2 <;> rfl

theorem adapterFrames_reId (pf : String → Option Int) (today : Int)
    (fT fC fA : Nat → String) (φ : String → String)
    (rT : Except String (List TrentoItem)) (rC : Except String (List CkanRec))
    (pgs : List (Except Unit (List Card))) (rP : Except Unit (List FeedItem))
    (hT : ∀ tl, rT = Except.ok tl → ∀ itm ∈ tl, ∀ u, itm.uid = some u → φ u = u)
    (hC : ∀ cl, rC = Except.ok cl → ∀ r ∈ cl, ∀ u, r.idGara = some u → φ u = u)
    (hP : ∀ pl, rP = Except.ok pl → ∀ it ∈ pl, φ it.link = it.link) :
    adapterFrames pf today (fun i => φ (fT i)) (fun i => φ (fC i)) (fun i => φ (fA i))
        rT rC pgs rP
      = (adapterFrames pf today fT fC fA rT rC pgs rP).map (List.map (reId φ)) := by
  have h1 : (match fetch_trento pf today (fun i => φ (fT i)) rT with
      | .ok l => some l | .error _ => none)
      = (match fetch_trento pf today fT rT with
      | .ok l => some l | .error _ => none).map (List.map (reId φ)) := by
    cases rT with
    | error e => rfl
    | ok tl =>
      simp only [fetch_trento, trentoNotices_reId pf today fT φ tl (hT tl rfl),
        Option.map_some']
  have h2 : (match fetch_ckan pf today (fun i => φ (fC i)) rC with
      | .ok l => some l | .error _ => none)
      = (match fetch_ckan pf today fC rC with
      | .ok l => some l | .error _ => none).map (List.map (reId φ)) := by
    cases rC with
    | error e => rfl
    | ok cl =>
      simp only [fetch_ckan, ckanNotices_reId pf today fC φ cl (hC cl rfl),
        Option.map_some']
  unfold adapterFrames
  rw [h1, h2, fetch_altoadige_reId pf today fA φ pgs]
  exact frames_map (List.map (reId φ)) _ _ _ _ _
    (fetch_pat_reId pf today 50 φ rP hP).symm

theorem mergedAll_reId (pf : String → Option Int) (today : Int)
    (fT fC fA : Nat → String) (φ : String → String)
    (rT : Except String (List TrentoItem)) (rC : Except String (List CkanRec))
    (pgs : List (Except Unit (List Card))) (rP : Except Unit (List FeedItem))
    (hT : ∀ tl, rT = Except.ok tl → ∀ itm ∈ tl, ∀ u, itm.uid = some u → φ u = u)
    (hC : ∀ cl, rC = Except.ok cl → ∀ r ∈ cl, ∀ u, r.idGara = some u → φ u = u)
    (hP : ∀ pl, rP = Except.ok pl → ∀ it ∈ pl, φ it.link = it.link) :
    mergedAll pf today (fun i => φ (fT i)) (fun i => φ (fC i)) (fun i => φ (fA i))
        rT rC pgs rP
      = (mergedAll pf today fT fC fA rT rC pgs rP).map (reId φ) := by
  unfold mergedAll
  rw [adapterFrames_reId pf today fT fC fA φ rT rC pgs rP hT hC hP, ← List.map_flatten]

theorem dedupByIdAux_reId (φ : String → String) (hinj : Function.Injective φ)
    (seen : List String) (l : List Notice) :
    dedupByIdAux (seen.map φ) (l.map (reId φ)) = (dedupByIdAux seen l).map (reId φ) := by
  induction l generalizing seen with
  | nil => rfl
  | cons n t ih =>
    have hmem_iff : ((reId φ n).id ∈ seen.map φ) ↔ (n.id ∈ seen) :=
      List.mem_map_of_injective hinj
    by_cases hm : n.id ∈ seen
    · rw [List.map_cons, dedupByIdAux, if_pos (hmem_iff.mpr hm)]
      rw [show dedupByIdAux seen (n :: t) = dedupByIdAux seen t from by
        rw [dedupByIdAux, if_pos hm]]
      exact ih seen
    · rw [List.map_cons, dedupByIdAux, if_neg (fun h => hm (hmem_iff.mp h))]
      rw [show dedupByIdAux seen (n :: t) = n :: dedupByIdAux (n.id :: seen) t from by
        rw [dedupByIdAux, if_neg hm]]
      rw [List.map_cons]
      congr 1
      have hseen : (reId φ n).id :: seen.map φ = (n.id :: seen).map φ := by
        simp [reId]
      rw [hseen]
      exact ih (n.id :: seen)

theorem dedupById_reId (φ : String → String) (hinj : Function.Injective φ)
    (l : List Notice) :
    dedupById (l.map (reId φ)) = (dedupById l).map (reId φ) :=
  dedupByIdAux_reId φ hinj [] l

theorem applySort_reId (sortAlg : List (Option Int) → List Nat)
    (ps : String → Option Int) (φ : String → String) (dd : List Notice) :
    applySort sortAlg ps (dd.map (reId φ)) = (applySort sortAlg ps dd).map (reId φ) := by
  unfold applySort
  dsimp only
  have hkeyed : (dd.map (reId φ)).map (fun n => (n, sortKey ps n.deadline))
      = (dd.map fun n => (n, sortKey ps n.deadline)).map (Prod.map (reId φ) id) := by
    rw [List.map_map, List.map_map]
    rfl
  rw [hkeyed]
  have hsnd : ((dd.map fun n => (n, sortKey ps n.deadline)).map
        (Prod.map (reId φ) id)).map Prod.snd
      = (dd.map fun n => (n, sortKey ps n.deadline)).map Prod.snd := by
    rw [List.map_map]
    rfl
  rw [hsnd]
  rw [List.map_filterMap, List.map_filterMap, List.map_filterMap]
  refine List.filterMap_congr fun i _ => ?_
  rw [List.getElem?_map]
  cases (dd.map fun n => (n, sortKey ps n.deadline))[i]? <;> rfl

/-- Claim C7 amended: the pipeline is deterministic up to the freshly generated
id tokens. Two runs over identical source snapshots whose uuid draws are
related by an injective renaming `φ` fixing all source-provided ids produce
the same collection up to renaming the generated ids — every other field, the
membership and the order coincide. (Byte-identical outputs fail because
`uuid.uuid4()` draws fresh tokens on each run; see the counterexample.) -/
theorem claim_C7_determinism (pf ps : String → Option Int) (today : Int)
    (fT fC fA : Nat → String) (φ : String → String)
    (rT : Except String (List TrentoItem)) (rC : Except String (List CkanRec))
    (pgs : List (Except Unit (List Card))) (rP : Except Unit (List FeedItem))
    (sortAlg : List (Option Int) → List Nat)
    (hinj : Function.Injective φ)
    (hT : ∀ tl, rT = Except.ok tl → ∀ itm ∈ tl, ∀ u, itm.uid = some u → φ u = u)
    (hC : ∀ cl, rC = Except.ok cl → ∀ r ∈ cl, ∀ u, r.idGara = some u → φ u = u)
    (hP : ∀ pl, rP = Except.ok pl → ∀ it ∈ pl, φ it.link = it.link) :
    load_bandi pf ps today (fun i => φ (fT i)) (fun i => φ (fC i)) (fun i => φ (fA i))
        rT rC pgs rP sortAlg
      = Except.map (List.map (reId φ))
          (load_bandi pf ps today fT fC fA rT rC pgs rP sortAlg) := by
  unfold load_bandi
  dsimp only
  rw [adapterFrames_reId pf today fT fC fA φ rT rC pgs rP hT hC hP]
  rw [isEmpty_map_eq, ← List.map_flatten, isEmpty_map_eq]
  cases h1 : (adapterFrames pf today fT fC fA rT rC pgs rP).isEmpty
  · rw [if_neg Bool.false_ne_true, if_neg Bool.false_ne_true]
    cases h2 : (adapterFrames pf today fT fC fA rT rC pgs rP).flatten.isEmpty
    · rw [if_neg Bool.false_ne_true, if_neg Bool.false_ne_true]
      rw [dedupById_reId φ hinj, applySort_reId]
      rfl
    · rw [if_pos rfl, if_pos rfl]
      rfl
  · rw [if_pos rfl, if_pos rfl]
    rfl

/-- Claim C7 counterexample: two runs against the identical source snapshot
(one Alto Adige card, every other source failing) differ, because the id of the
card falls back to the per-run `uuid.uuid4()` token (`"u1"` in one run, `"u2"`
in the other). -/
theorem claim_C7_counterexample :
    load_bandi pfNone pfNone 0 freshBlank freshBlank (fun _ => "u1")
        (Except.error "net") (Except.error "net")
        [Except.ok [(⟨some ⟨"Fiera", none⟩, none⟩ : Card)]] (Except.error ()) idAlg
      ≠ load_bandi pfNone pfNone 0 freshBlank freshBlank (fun _ => "u2")
        (Except.error "net") (Except.error "net")
        [Except.ok [(⟨some ⟨"Fiera", none⟩, none⟩ : Card)]] (Except.error ()) idAlg := by
  decide

/-- Witness for the amended C7: the two runs of the counterexample snapshot are
related by the injective token renaming `swapU`. -/
theorem claim_C7_witness :
    load_bandi pfNone pfNone 0 (fun i => swapU (freshBlank i))
        (fun i => swapU (freshBlank i)) (fun i => swapU ((fun _ => "u1") i))
        (Except.error "net") (Except.error "net")
        [Except.ok [(⟨some ⟨"Fiera", none⟩, none⟩ : Card)]] (Except.error ()) idAlg
      = Except.map (List.map (reId swapU))
          (load_bandi pfNone pfNone 0 freshBlank freshBlank (fun _ => "u1")
            (Except.error "net") (Except.error "net")
            [Except.ok [(⟨some ⟨"Fiera", none⟩, none⟩ : Card)]] (Except.error ()) idAlg) :=
  claim_C7_determinism pfNone pfNone 0 freshBlank freshBlank (fun _ => "u1") swapU
    (Except.error "net") (Except.error "net")
    [Except.ok [(⟨some ⟨"Fiera", none⟩, none⟩ : Card)]] (Except.error ()) idAlg
    (Function.Involutive.injective (by
      intro s
      unfold swapU
      by_cases h1 : s = "u1"
      · simp [h1]
      · by_cases h2 : s = "u2" <;> simp [h1, h2]))
    (fun tl h => Except.noConfusion h)
    (fun cl h => Except.noConfusion h)
    (fun pl h => Except.noConfusion h)

end Bandi
